import Mathlib

/-!
Verification of the socket-communication core of `kanelbulle`
(`kanelbulle/misc/socket.py`), as a shallow embedding in Lean 4.

Modelling conventions:

* A byte is a `Nat` (the claims only involve values `0..255`); a TCP stream
  is the `List Nat` of bytes that the peer actually delivers, in order;
  reaching the end of the list models an orderly close of the connection
  (each further `recv` returns zero bytes, as the Python `socket.recv` does).
  `socket.timeout` / `socket.error` events are not part of the stream model:
  the claims under study concern streams on which reads succeed or hit
  end-of-stream.
* Python `str` values that travel over the socket are modelled by their
  UTF-8 byte sequences (`List Nat`); the final `view.tobytes().decode()`
  of `SocketServer.recv` is the identity on this representation.
* The blocking `recv`/`recv_into` calls may deliver fewer bytes than
  requested; a *schedule* `List Nat` supplies, per call, a cap on the
  number of bytes delivered (`cap + 1`, so that a blocking read with data
  available always delivers at least one byte, as real sockets do).
  At end-of-stream a read delivers zero bytes.
* Loops whose termination depends on the peer are given explicit fuel;
  `none` / `.pending` means the loop is still running after that many
  iterations.
-/

namespace Kanelbulle

/-- ASCII code of the newline delimiter used by the wire format. -/
def nlByte : Nat := 10

/-- `str.isdigit` for a single ASCII byte: codes 48..57.
(the Python `isdigit` also accepts some non-ASCII digit characters; the
single byte read by `recv(1).decode()` is ASCII whenever it decodes at
all in the one-byte case relevant here, see `decodeLength`.) -/
def isDigitB (b : Nat) : Bool := 48 ≤ b && b ≤ 57

/-- Python `int(length_str)` on a string of ASCII digit characters:
fold the decimal digits. -/
def valOfDigits (acc : List Nat) : Nat :=
  acc.foldl (fun n d => n * 10 + (d - 48)) 0

/-- The ASCII decimal representation of `n`, most significant digit
first, as produced by the Python percent-d byte formatting. -/
def digitsOf (n : Nat) : List Nat :=
  if n = 0 then [48] else (Nat.digits 10 n).reverse.map (· + 48)

/-- `SocketServer.send`, steps 1 and 2 (socket.py lines 107-116), at the
byte level: the bytes written to the stream for payload `data` are the
ASCII decimal digits of `len(data)`, a newline, then the payload bytes. -/
def encode (data : List Nat) : List Nat :=
  digitsOf data.length ++ nlByte :: data

/-- Outcome of the length-reading loop of `SocketServer.recv`
(socket.py lines 149-169). -/
inductive LenResult where
  /-- The loop terminated at a newline, `int(length_str)` succeeded, and
  `rest` is the unread remainder of the stream. -/
  | ok (total : Nat) (rest : List Nat)
  /-- A read returned no bytes: the code logs an error and returns
  `[False, False]` (connection lost). -/
  | connLost
  /-- The loop terminated at a newline with an empty accumulator, so
  `int("")` raises an uncaught `ValueError`. -/
  | valueError
  /-- `recv(1)` delivered a byte `≥ 0x80`, so the one-byte
  `.decode()` raises an uncaught `UnicodeDecodeError`. -/
  | decodeError
  deriving DecidableEq, Repr

/-- The length-reading loop of `SocketServer.recv` (socket.py lines
149-169): read one byte at a time; a digit is appended to the
accumulator, a newline ends the loop (then `int` parses the
accumulator), any other byte resets the accumulator, end-of-stream is a
lost connection.  `acc` is `length_str`. -/
def decodeLength : List Nat → List Nat → LenResult
  | [], _ => .connLost
  | b :: rest, acc =>
      if 128 ≤ b then .decodeError
      else if b = nlByte then
        if acc = [] then .valueError else .ok (valOfDigits acc) rest
      else if isDigitB b then decodeLength rest (acc ++ [b])
      else decodeLength rest []

/-- The body-reading loop of `SocketServer.recv` (socket.py lines
171-184): `while total - next_offset > 0: recv_into(...)`, accumulating
chunks.  `remaining` is `total - next_offset`; `sched` caps each
delivery at `cap + 1` bytes; at end-of-stream a call delivers zero bytes
and the loop body makes no progress (the code never tests
`recv_size == 0`).  Returns the bytes read and the unread remainder, or
`none` when `fuel` iterations did not finish the loop. -/
def recvBody : Nat → List Nat → List Nat → Nat → Option (List Nat × List Nat)
  | 0, _, _, _ => none
  | fuel + 1, sched, s, remaining =>
      if remaining = 0 then some ([], s)
      else
        let k := min remaining (min (sched.headD 0 + 1) s.length)
        match recvBody fuel sched.tail (s.drop k) (remaining - k) with
        | none => none
        | some (bs, rest) => some (s.take k ++ bs, rest)

/-- Outcome of the frame-decoding part of `SocketServer.recv`
(length header then body, socket.py lines 149-186). -/
inductive FrameResult where
  | ok (payload : List Nat) (rest : List Nat)
  | connLost
  | valueError
  | decodeError
  /-- The body loop was still running after the given fuel. -/
  | pending
  deriving DecidableEq, Repr

/-- Frame decoding in `SocketServer.recv`: read the length header, then
read exactly that many body bytes. -/
def recvFrame (fuel : Nat) (sched : List Nat) (s : List Nat) : FrameResult :=
  match decodeLength s [] with
  | .connLost => .connLost
  | .valueError => .valueError
  | .decodeError => .decodeError
  | .ok total rest =>
      match recvBody fuel sched rest total with
      | none => .pending
      | some (body, rest') => .ok body rest'

/-! ### The structured-log interpretation (socket.py lines 188-214)

The received text is a Python `str`, modelled as its byte sequence.
`json.loads` is standard-library code; it is modelled here by a
recursive-descent parser `pyJsonLoads` over the JSON fragment the
protocol uses: `null`, booleans, decimal numbers (integers and decimal
fractions, as exact rationals; exponent notation, `NaN` and `Infinity`
are outside the model and fail to parse), strings with the simple
escapes, arrays, and objects with the Python duplicate-key-overwrite
semantics.  Both the embedded code path and the specification-side
predicate use this same parser. -/

/-- The bytes of an ASCII string literal. -/
def strBytes (s : String) : List Nat := s.toList.map Char.toNat

/-- A parsed JSON value (Python object produced by `json.loads`). -/
inductive Json where
  | null
  | bool (b : Bool)
  | num (q : ℚ)
  | str (s : List Nat)
  | arr (xs : List Json)
  | obj (kvs : List (List Nat × Json))

/-- Python `v is None` for a `json.loads` result. -/
def Json.isNull : Json → Bool
  | .null => true
  | _ => false

/-- JSON insignificant whitespace. -/
def isWsB (b : Nat) : Bool := b = 32 || b = 9 || b = 10 || b = 13

/-- Skip insignificant whitespace. -/
def skipWs : List Nat → List Nat
  | [] => []
  | b :: rest => if isWsB b then skipWs rest else b :: rest

/-- Parse the body of a string literal (the opening quote already
consumed): content up to the closing quote, decoding the one-character
escapes.  `\uXXXX` escapes are outside the model. -/
def parseStringBody : List Nat → Option (List Nat × List Nat)
  | [] => none
  | 34 :: rest => some ([], rest)
  | 92 :: e :: rest =>
      let c : Option Nat :=
        if e = 34 then some 34 else if e = 92 then some 92
        else if e = 47 then some 47 else if e = 98 then some 8
        else if e = 102 then some 12 else if e = 110 then some 10
        else if e = 114 then some 13 else if e = 116 then some 9
        else none
      match c with
      | none => none
      | some c =>
          match parseStringBody rest with
          | none => none
          | some (cs, r) => some (c :: cs, r)
  | b :: rest =>
      if b < 32 then none
      else
        match parseStringBody rest with
        | none => none
        | some (cs, r) => some (b :: cs, r)

/-- Split off the leading run of ASCII digits. -/
def takeDigits : List Nat → List Nat × List Nat
  | [] => ([], [])
  | b :: rest =>
      if isDigitB b then
        let (ds, r) := takeDigits rest
        (b :: ds, r)
      else ([], b :: rest)

/-- Parse a JSON number (exact rational): optional minus, integer part
without a superfluous leading zero, optional fraction.  A following
exponent marker makes the parse fail (exponents are outside the
model). -/
def parseNumBody (s : List Nat) : Option (ℚ × List Nat) :=
  let (neg, s1) : Bool × List Nat :=
    match s with
    | 45 :: r => (true, r)
    | _ => (false, s)
  let (ds, s2) := takeDigits s1
  if ds = [] then none
  else if 1 < ds.length ∧ ds.head? = some 48 then none
  else
    let signed : ℚ → ℚ := fun q => if neg then -q else q
    match s2 with
    | 46 :: s3 =>
        let (fs, s4) := takeDigits s3
        if fs = [] then none
        else if s4.head? = some 101 ∨ s4.head? = some 69 then none
        else
          some (signed ((valOfDigits ds : ℚ)
            + (valOfDigits fs : ℚ) / (10 : ℚ) ^ fs.length), s4)
    | _ =>
        if s2.head? = some 101 ∨ s2.head? = some 69 then none
        else some (signed (valOfDigits ds : ℚ), s2)

/-- Insert a key/value pair with Python-`dict` semantics: a duplicate
key overwrites the stored value, otherwise the pair is appended. -/
def insertKV (kvs : List (List Nat × Json)) (k : List Nat) (v : Json) :
    List (List Nat × Json) :=
  if kvs.any (fun p => p.1 = k) then
    kvs.map (fun p => if p.1 = k then (k, v) else p)
  else kvs ++ [(k, v)]

mutual

/-- Parse one JSON value (fuelled recursive descent). -/
def parseValue : Nat → List Nat → Option (Json × List Nat)
  | 0, _ => none
  | fuel + 1, s =>
      match skipWs s with
      | [] => none
      | b :: rest =>
          if b = 110 then
            match rest with
            | 117 :: 108 :: 108 :: r => some (.null, r)
            | _ => none
          else if b = 116 then
            match rest with
            | 114 :: 117 :: 101 :: r => some (.bool true, r)
            | _ => none
          else if b = 102 then
            match rest with
            | 97 :: 108 :: 115 :: 101 :: r => some (.bool false, r)
            | _ => none
          else if b = 34 then
            match parseStringBody rest with
            | none => none
            | some (cs, r) => some (.str cs, r)
          else if b = 123 then
            match skipWs rest with
            | 125 :: r => some (.obj [], r)
            | _ => parseObjRest fuel [] rest
          else if b = 91 then
            match skipWs rest with
            | 93 :: r => some (.arr [], r)
            | _ => parseArrRest fuel [] rest
          else if b = 45 || isDigitB b then
            match parseNumBody (b :: rest) with
            | none => none
            | some (q, r) => some (.num q, r)
          else none

/-- Parse the members of an object, positioned before a key; `kvs` is
the accumulator. -/
def parseObjRest (fuel : Nat) (kvs : List (List Nat × Json))
    (s : List Nat) : Option (Json × List Nat) :=
  match fuel with
  | 0 => none
  | fuel + 1 =>
      match skipWs s with
      | 34 :: rest =>
          match parseStringBody rest with
          | none => none
          | some (k, r1) =>
              match skipWs r1 with
              | 58 :: r2 =>
                  match parseValue fuel r2 with
                  | none => none
                  | some (v, r3) =>
                      match skipWs r3 with
                      | 44 :: r4 => parseObjRest fuel (insertKV kvs k v) r4
                      | 125 :: r4 => some (.obj (insertKV kvs k v), r4)
                      | _ => none
              | _ => none
      | _ => none

/-- Parse the items of an array, positioned before an item; `acc` is
the accumulator. -/
def parseArrRest (fuel : Nat) (acc : List Json) (s : List Nat) :
    Option (Json × List Nat) :=
  match fuel with
  | 0 => none
  | fuel + 1 =>
      match parseValue fuel s with
      | none => none
      | some (v, r) =>
          match skipWs r with
          | 44 :: r2 => parseArrRest fuel (acc ++ [v]) r2
          | 93 :: r2 => some (.arr (acc ++ [v]), r2)
          | _ => none

end

/-- `json.loads` on a whole text: one value, then only whitespace.  The
fuel `s.length + 1` dominates the recursion depth, which consumes at
least one byte per level. -/
def pyJsonLoads (s : List Nat) : Option Json :=
  match parseValue (s.length + 1) s with
  | none => none
  | some (j, r) => if skipWs r = [] then some j else none

/-- `data.replace` of apostrophes by double quotes (socket.py line 191): every apostrophe
becomes a double quote. -/
def normalize (s : List Nat) : List Nat :=
  s.map (fun b => if b = 39 then 34 else b)

/-- Python `len(jmsg)`: length of a string, array or dict;
`TypeError` (`none`) otherwise. -/
def pyLen : Json → Option Nat
  | .str s => some s.length
  | .arr xs => some xs.length
  | .obj kvs => some kvs.length
  | _ => none

/-- Python `jmsg[key]` for a string key: dict lookup (`KeyError` when
absent), `TypeError` on any non-dict — both exceptions are caught by
the same `except` clause, so both are `none`. -/
def pySub (j : Json) (k : List Nat) : Option Json :=
  match j with
  | .obj kvs => (kvs.find? (fun p => decide (p.1 = k))).map (·.2)
  | _ => none

/-- Python `level in range(10, 60, 10)` on a `json.loads` value. -/
def levelInRange : Json → Bool
  | .num q => q = 10 ∨ q = 20 ∨ q = 30 ∨ q = 40 ∨ q = 50
  | _ => false

/-- A local variable holding a `json.loads` value: JSON `null` is the
same Python object `None` as the initial value of the locals
`client`/`level`/`msg`. -/
def pyLocal (v : Json) : Option Json :=
  if v.isNull then none else some v

def keyClient : List Nat := strBytes "client"

def keyLevel : List Nat := strBytes "level"

def keyMsg : List Nat := strBytes "msg"

/-- The placeholder logged for an empty frame (socket.py line 211). -/
def placeholderBytes : List Nat := strBytes "-- empty string --"

/-- Where a decoded frame is routed (socket.py lines 206-212). -/
inductive Routed where
  /-- `self.logger.log(level, msg)` with `msg = client + sep + msg`:
  a structured entry carrying the parsed level, client and message
  values. -/
  | structured (lvl : Json) (client : Json) (msg : Json)
  /-- `self.logger.info` of the given text under the `Client` label. -/
  | raw (text : List Nat)

/-- Socket.py lines 188-213: normalize apostrophes, attempt the JSON
parse, extract `client`/`level`/`msg` under Python exception semantics
(a `KeyError`/`TypeError` aborts the remaining assignments and skips
the level filter), filter invalid levels, and route. -/
def interpret (rawText : List Nat) : Routed :=
  let data := normalize rawText
  let locals : Option Json × Option Json × Option Json :=
    match pyJsonLoads data with
    | none => (none, none, none)
    | some j =>
        match pyLen j with
        | none => (none, none, none)
        | some n =>
          if n = 3 then
            match pySub j keyClient with
            | none => (none, none, none)
            | some c =>
                match pySub j keyLevel with
                | none => (pyLocal c, none, none)
                | some l =>
                    match pySub j keyMsg with
                    | none => (pyLocal c, pyLocal l, none)
                    | some m =>
                        (pyLocal c,
                         if levelInRange l then pyLocal l else none,
                         pyLocal m)
          else (none, none, none)
  match locals with
  | (some c, some l, some m) => .structured l c m
  | _ => .raw (if data = [] then placeholderBytes else data)

/-- `SocketServer.recv` after a successful frame decode: route the
decoded text, then return `[True, True]` (socket.py line 214). -/
def recvInterpret (text : List Nat) : Routed × (Bool × Bool) :=
  (interpret text, (true, true))

/-- The specification structured-log condition, read off the words of the
spec: the (apostrophe-normalized) text parses as JSON, the result is
an object whose key set is exactly `{client, level, msg}` (three keys),
the level is one of `{10, 20, 30, 40, 50}`, and — the amendment forced
by the code — the client and msg values are not JSON `null`.  Returns
the level, client and msg values. -/
def specStructured (t : List Nat) : Option (Json × Json × Json) :=
  match pyJsonLoads (normalize t) with
  | some (.obj kvs) =>
      if (kvs.map Prod.fst).Perm [keyClient, keyLevel, keyMsg] then
        match pySub (.obj kvs) keyClient, pySub (.obj kvs) keyLevel,
            pySub (.obj kvs) keyMsg with
        | some c, some l, some m =>
            if levelInRange l ∧ ¬ c.isNull ∧ ¬ m.isNull then
              some (l, c, m)
            else none
        | _, _, _ => none
      else none
  | _ => none

/-- The structured-log condition exactly as the specification states
it, with no non-null requirement on the `client` and `msg` values: the
(apostrophe-normalized) text parses as JSON, the result is an object
whose key set is exactly `{client, level, msg}`, and the level is one
of `{10, 20, 30, 40, 50}`. -/
def specStructuredOrig (t : List Nat) : Option (Json × Json × Json) :=
  match pyJsonLoads (normalize t) with
  | some (.obj kvs) =>
      if (kvs.map Prod.fst).Perm [keyClient, keyLevel, keyMsg] then
        match pySub (.obj kvs) keyClient, pySub (.obj kvs) keyLevel,
            pySub (.obj kvs) keyMsg with
        | some c, some l, some m =>
            if levelInRange l then some (l, c, m) else none
        | _, _, _ => none
      else none
  | _ => none

/-- Whether a routing outcome is the structured one. -/
def Routed.isStructuredB : Routed → Bool
  | .structured _ _ _ => true
  | .raw _ => false

/-! ### The connection state machine (socket.py lines 27-74, 216-227,
359-373)

`SocketServer.__init__`, `create`, `accept`, `close`, the no-peer
guards of `send`/`recv`, and the controller peer-clearing in
`Server._start_accept`.  Outcomes of external calls (`isinstance`
checks, `bind`/`listen`, `socket.accept`) are parameters of the
corresponding operations. -/

/-- A socket object held in `self.socket`: freshly constructed by
`socket.socket(...)` but not listening, or bound and listening. -/
inductive SockHandle where
  | fresh
  | listening
  deriving DecidableEq, Repr

/-- The attributes of a `SocketServer` relevant to its connection
state; peer sockets and addresses are abstracted as numbers. -/
structure Conn where
  sock : Option SockHandle
  client_conn : Option Nat
  client_addr : Option Nat
  deriving DecidableEq, Repr

/-- `SocketServer.__init__` (lines 27-31). -/
def initConn : Conn := ⟨none, none, none⟩

/-- `SocketServer.create` (lines 33-63).  `typesOk` is the
`isinstance` check on host and port; `bindOk` is whether
`bind` + `listen` complete without `socket.error`.  On the type check
passing, the fresh socket object is stored *before* the `try`; a bind
failure returns `False` with that object still stored. -/
def create (typesOk bindOk : Bool) (st : Conn) : Bool × Conn :=
  if typesOk then
    if bindOk then (true, { st with sock := some .listening })
    else (false, { st with sock := some .fresh })
  else (false, st)

/-- `SocketServer.accept` (lines 65-74).  `result` is what
`self.socket.accept()` produces: `none` for `socket.timeout`, or the
accepted `(conn, addr)` pair, assigned to both attributes at once. -/
def accept (result : Option (Nat × Nat)) (st : Conn) : Bool × Conn :=
  match result with
  | none => (false, st)
  | some (c, a) =>
      (true, { st with client_conn := some c, client_addr := some a })

/-- `SocketServer.send` (lines 76-123): its return value, post state
and the bytes written to the peer.  `path`/`fileOk` model the optional
file read (its JSON re-serialization abstracted into `data`), `sockOk`
whether `sendall` raises `socket.error`, and `partialOut` the bytes a
failed `sendall` still delivered.  No branch assigns any attribute. -/
def sendOp (st : Conn) (data : List Nat) (path fileOk sockOk : Bool)
    (partialOut : List Nat) : (Bool × Bool) × Conn × List Nat :=
  if st.client_conn.isNone then ((false, false), st, [])
  else if path && !fileOk then ((true, false), st, [])
  else if sockOk then ((true, true), st, encode data)
  else ((false, true), st, partialOut)

/-- Outcome of a call to `SocketServer.recv`. -/
inductive RecvOutcome where
  /-- The method returns `r`, leaves the state `st`, routed the decoded
  message as `routed` (`none` when nothing was decoded), and `rest` of
  the stream is still unread. -/
  | ret (r : Bool × Bool) (st : Conn) (routed : Option Routed)
      (rest : List Nat)
  /-- An uncaught exception (`ValueError` from `int("")` or
  `UnicodeDecodeError`) escapes the method. -/
  | exn
  /-- The body loop is still running after `fuel` iterations. -/
  | hang

/-- `SocketServer.recv` (lines 125-214): the no-peer guard, then frame
decoding, then routing; returns `[True, True]` after routing.  No
branch assigns any attribute. -/
def recvOp (fuel : Nat) (sched : List Nat) (st : Conn) (s : List Nat) :
    RecvOutcome :=
  if st.client_conn.isNone then .ret (false, false) st none s
  else
    match recvFrame fuel sched s with
    | .ok payload rest => .ret (true, true) st (some (interpret payload)) rest
    | .connLost => .ret (false, false) st none []
    | .valueError => .exn
    | .decodeError => .exn
    | .pending => .hang

/-- `SocketServer.close` (lines 216-227): clear the peer connection and
address together when a peer is present, then drop the listening
socket when present. -/
def close (st : Conn) : Conn :=
  let st1 :=
    if st.client_conn.isSome then
      { st with client_conn := none, client_addr := none }
    else st
  if st1.sock.isSome then { st1 with sock := none } else st1

/-- `Server._start_accept` (lines 370-371): the controller clears both
peer attributes before re-accepting. -/
def clearPeer (st : Conn) : Conn :=
  { st with client_conn := none, client_addr := none }

/-- One operation on the connection state, with the outcomes of its
external calls as parameters. -/
inductive Op where
  | create (typesOk bindOk : Bool)
  | accept (result : Option (Nat × Nat))
  | send (data : List Nat) (path fileOk sockOk : Bool)
      (partialOut : List Nat)
  | recv (fuel : Nat) (sched : List Nat) (s : List Nat)
  | close
  | clearPeer

/-- The connection state after an operation. -/
def Op.apply (st : Conn) : Op → Conn
  | .create t b => (Kanelbulle.create t b st).2
  | .accept r => (Kanelbulle.accept r st).2
  | .send d p f k po => (sendOp st d p f k po).2.1
  | .recv fuel sched s =>
      match recvOp fuel sched st s with
      | .ret _ st' _ _ => st'
      | _ => st
  | .close => Kanelbulle.close st
  | .clearPeer => Kanelbulle.clearPeer st

/-- A sequence of operations applied from a state. -/
def applyOps (ops : List Op) (st : Conn) : Conn :=
  ops.foldl Op.apply st

/-- The data-model invariant: the peer socket is set exactly when the
peer address is set. -/
def peerInv (st : Conn) : Prop :=
  st.client_conn.isSome = st.client_addr.isSome

/-! ### The receive-loop sleep interval (socket.py lines 246-261,
422-432) -/

/-- `Server.__init__` lines 247-261: the value stored into
`self.receive_thread.sleep` — `config.var.data[\x22socket\x22][\x22sleep\x22]`
when both lookups succeed (whatever the type of the value), and the
predefined `1.0` when a `TypeError` or `KeyError` makes them fail. -/
def configuredSleep (data : Json) : Json :=
  match pySub data (strBytes "socket") with
  | none => .num 1
  | some sub =>
      match pySub sub (strBytes "sleep") with
      | none => .num 1
      | some v => v

/-- `ReceiveThread.run` line 426: the interval actually slept between
two consecutive iterations of the receive loop is the literal
`time.sleep(0.5)` — the `sleep` attribute is never read. -/
def receiveLoopInterval : ℚ := 1 / 2

/-! ### Lemmas about the decimal length header -/

lemma foldl_digits_rev (ds : List Nat) (a : Nat) (h : ∀ d ∈ ds, d < 10) :
    (ds.reverse.map (· + 48)).foldl (fun n d => n * 10 + (d - 48)) a
      = a * 10 ^ ds.length + Nat.ofDigits 10 ds := by
  induction ds generalizing a with
  | nil => simp
  | cons d ds ih =>
      have hd : d < 10 := h d (by simp)
      have hds : ∀ x ∈ ds, x < 10 := fun x hx => h x (by simp [hx])
      simp only [List.reverse_cons, List.map_append, List.foldl_append,
        List.map_cons, List.map_nil, List.foldl_cons, List.foldl_nil]
      rw [ih a hds, Nat.ofDigits_cons]
      have : d + 48 - 48 = d := by omega
      rw [this]
      ring_nf
      simp [pow_succ]
      ring

lemma valOfDigits_digitsOf (n : Nat) : valOfDigits (digitsOf n) = n := by
  unfold digitsOf valOfDigits
  by_cases h : n = 0
  · simp [h]
  · simp only [h, if_false]
    have hlt : ∀ d ∈ Nat.digits 10 n, d < 10 := fun d hd =>
      Nat.digits_lt_base (by norm_num) hd
    rw [foldl_digits_rev _ 0 hlt]
    simp [Nat.ofDigits_digits]

lemma digitsOf_mem {n d : Nat} (h : d ∈ digitsOf n) : 48 ≤ d ∧ d ≤ 57 := by
  unfold digitsOf at h
  by_cases h0 : n = 0
  · simp [h0] at h
    omega
  · simp only [h0, if_false, List.mem_map, List.mem_reverse] at h
    obtain ⟨x, hx, rfl⟩ := h
    have := Nat.digits_lt_base (by norm_num) hx
    omega

lemma digitsOf_ne_nil (n : Nat) : digitsOf n ≠ [] := by
  unfold digitsOf
  by_cases h0 : n = 0
  · simp [h0]
  · simp only [h0, if_false, ne_eq, List.map_eq_nil_iff, List.reverse_eq_nil_iff]
    exact Nat.digits_ne_nil_iff_ne_zero.mpr h0

lemma decodeLength_digits (ds : List Nat) (hds : ∀ d ∈ ds, 48 ≤ d ∧ d ≤ 57) :
    ∀ (rest acc : List Nat),
      decodeLength (ds ++ nlByte :: rest) acc
        = if acc ++ ds = [] then .valueError
          else .ok (valOfDigits (acc ++ ds)) rest := by
  induction ds with
  | nil =>
      intro rest acc
      simp [decodeLength, nlByte]
  | cons d ds ih =>
      intro rest acc
      obtain ⟨h1, h2⟩ := hds d (by simp)
      have hds' : ∀ x ∈ ds, 48 ≤ x ∧ x ≤ 57 := fun x hx => hds x (by simp [hx])
      have hnl : d ≠ nlByte := by unfold nlByte; omega
      have hlt : ¬ 128 ≤ d := by omega
      have hdig : isDigitB d = true := by unfold isDigitB; simp; omega
      simp only [List.cons_append, decodeLength, hlt, if_false, hnl, hdig,
        if_true, List.append_eq]
      rw [ih hds' rest (acc ++ [d])]
      simp

lemma decodeLength_encode (p extra : List Nat) :
    decodeLength (encode p ++ extra) [] = .ok p.length (p ++ extra) := by
  unfold encode
  have h : digitsOf p.length ++ nlByte :: p ++ extra
      = digitsOf p.length ++ nlByte :: (p ++ extra) := by simp
  rw [h, decodeLength_digits _ (fun d hd => digitsOf_mem hd)]
  simp [digitsOf_ne_nil, valOfDigits_digitsOf]

/-! ### Lemmas about the chunked body read -/

lemma recvBody_done :
    ∀ (fuel : Nat) (sched s : List Nat) (rem : Nat),
      rem ≤ s.length → rem < fuel →
      recvBody fuel sched s rem = some (s.take rem, s.drop rem) := by
  intro fuel
  induction fuel with
  | zero => intro _ _ rem _ h; omega
  | succ fuel ih =>
      intro sched s rem hs hf
      by_cases h0 : rem = 0
      · simp [recvBody, h0]
      · have hk1 : 1 ≤ min rem (min (sched.headD 0 + 1) s.length) := by
          have : 1 ≤ s.length := by omega
          omega
        simp only [recvBody, h0, if_false]
        set k := min rem (min (sched.headD 0 + 1) s.length) with hk
        have hkrem : k ≤ rem := by omega
        have hks : k ≤ s.length := by
          have := min_le_right (sched.headD 0 + 1) s.length
          omega
        have hrec := ih sched.tail (s.drop k) (rem - k)
          (by simp; omega) (by omega)
        rw [hrec]
        have hsum : k + (rem - k) = rem := by omega
        have htake : s.take k ++ (s.drop k).take (rem - k) = s.take rem := by
          rw [← List.take_add, hsum]
        have hdrop : (s.drop k).drop (rem - k) = s.drop rem := by
          rw [List.drop_drop, hsum]
        simp [htake, hdrop]

lemma recvBody_eof :
    ∀ (fuel : Nat) (sched s : List Nat) (rem : Nat),
      s.length < rem → recvBody fuel sched s rem = none := by
  intro fuel
  induction fuel with
  | zero => intro _ _ _ _; simp [recvBody]
  | succ fuel ih =>
      intro sched s rem hs
      have h0 : rem ≠ 0 := by omega
      simp only [recvBody, h0, if_false]
      set k := min rem (min (sched.headD 0 + 1) s.length) with hk
      have hks : k ≤ s.length := by
        have := min_le_right (sched.headD 0 + 1) s.length
        omega
      have : (s.drop k).length < rem - k := by
        simp
        omega
      rw [ih sched.tail (s.drop k) (rem - k) this]

/-- Stray bytes that are neither ASCII digits nor the newline
delimiter (nor bytes the one-byte decode rejects) only reset the
accumulator: the length scan behaves as if they were absent. -/
lemma decodeLength_skip_garbage (g : List Nat)
    (hg : ∀ b ∈ g, b < 128 ∧ isDigitB b = false ∧ b ≠ nlByte)
    (s : List Nat) :
    decodeLength (g ++ s) [] = decodeLength s [] := by
  induction g with
  | nil => rfl
  | cons b g ih =>
      obtain ⟨h1, h2, h3⟩ := hg b (by simp)
      have hg' : ∀ x ∈ g, x < 128 ∧ isDigitB x = false ∧ x ≠ nlByte :=
        fun x hx => hg x (by simp [hx])
      have hb : ¬ 128 ≤ b := by omega
      simp only [List.cons_append, decodeLength, hb, if_false, h3, h2]
      simpa using ih hg'

/-! ### Claim C1 -/

/-- C1: frame round-trip — for every payload `p` (including the empty
payload and payloads containing newlines and digits), decoding a frame
(length header then body) from a stream starting with `encode p`
yields exactly `p`, leaving the rest of the stream unread, under every
delivery schedule. -/
theorem frame_roundtrip (p rest sched : List Nat) :
    recvFrame (p.length + 1) sched (encode p ++ rest) = .ok p rest := by
  unfold recvFrame
  rw [decodeLength_encode]
  dsimp only
  rw [recvBody_done (p.length + 1) sched (p ++ rest) p.length
    (by simp) (by omega)]
  simp [List.take_left', List.drop_left']

/-! ### Claim C2 -/

/-- C2: the body read accumulates partial reads until exactly the
declared `L` bytes are consumed whenever the stream holds at least `L`
bytes — but when the stream closes before `L` bytes are obtained, the
loop never returns (for every amount of fuel the loop is still
running): the code does not detect the zero-byte reads of a closed
connection, so it neither returns the connection-lost result nor
anything else. -/
theorem recvBody_reads_exactly_or_hangs :
    (∀ (sched s : List Nat) (L : Nat), L ≤ s.length →
        recvBody (L + 1) sched s L = some (s.take L, s.drop L))
    ∧ (∀ (fuel : Nat) (sched s : List Nat) (L : Nat), s.length < L →
        recvBody fuel sched s L = none) := by
  constructor
  · intro sched s L h
    exact recvBody_done (L + 1) sched s L h (by omega)
  · intro fuel sched s L h
    exact recvBody_eof fuel sched s L h

/-- C2 witness: with three stream bytes and `L = 2` the read returns
the first two bytes; with an empty (closed) stream and `L = 1` it is
still running after 5 iterations. -/
theorem recvBody_reads_exactly_or_hangs_witness :
    recvBody 3 [0] [7, 8, 9] 2 = some ([7, 8], [9])
    ∧ recvBody 5 [0] [] 1 = none :=
  ⟨recvBody_reads_exactly_or_hangs.1 [0] [7, 8, 9] 2 (by decide),
   recvBody_reads_exactly_or_hangs.2 5 [0] [] 1 (by decide)⟩

/-! ### Claim C3 -/

/-- C3 counterexample: a single garbage newline byte before the
well-formed frame `encode [97]` (i.e. `"1\n" ++ "a"`) makes the length
scan terminate with an empty accumulator, so `int("")` raises an
uncaught `ValueError` — the receive operation does not yield the
payload `[97]`; it raises. -/
theorem resync_newline_garbage_counterexample :
    recvFrame 2 [] (nlByte :: encode [97]) = .valueError
    ∧ FrameResult.valueError ≠ .ok [97] [] := by
  have he : nlByte :: encode [97] = [10, 49, 10, 97] := by
    simp [encode, digitsOf, nlByte]
  rw [he]
  exact ⟨by decide, by decide⟩

/-- C3 amended: for every garbage prefix consisting of ASCII bytes
that are neither digits nor newlines, decoding skips the garbage (each
such byte resets the accumulator) and the receive operation yields
exactly the payload of the following well-formed frame, without
raising. -/
theorem resync_skips_nondigit_garbage (g p rest sched : List Nat)
    (hg : ∀ b ∈ g, b < 128 ∧ isDigitB b = false ∧ b ≠ nlByte) :
    recvFrame (p.length + 1) sched (g ++ (encode p ++ rest)) = .ok p rest := by
  unfold recvFrame
  rw [decodeLength_skip_garbage g hg (encode p ++ rest), decodeLength_encode]
  dsimp only
  rw [recvBody_done (p.length + 1) sched (p ++ rest) p.length
    (by simp) (by omega)]
  simp [List.take_left', List.drop_left']

/-- C3 amended witness: a comma (byte 44) before the frame for the
payload `"hi"` is skipped and the payload is decoded. -/
theorem resync_skips_nondigit_garbage_witness :
    recvFrame 3 [] ([44] ++ (encode [104, 105] ++ [])) = .ok [104, 105] [] :=
  resync_skips_nondigit_garbage [44] [104, 105] [] [] (by decide)

/-! ### Claim C4 -/

lemma levelInRange_not_null {v : Json} (h : levelInRange v = true) :
    v.isNull = false := by
  cases v <;> simp_all [levelInRange, Json.isNull]

lemma find?_key_some {kvs : List (List Nat × Json)} {k : List Nat}
    {pr : List Nat × Json}
    (h : kvs.find? (fun p => decide (p.1 = k)) = some pr) :
    pr.1 = k ∧ k ∈ kvs.map Prod.fst := by
  have h1 : pr.1 = k := by simpa using List.find?_some h
  refine ⟨h1, ?_⟩
  simp only [List.mem_map]
  exact ⟨pr, List.mem_of_find?_eq_some h, h1⟩

lemma keyNodup : ([keyClient, keyLevel, keyMsg] : List (List Nat)).Nodup := by
  decide

/-- Three distinct keys present in a three-entry association list are
exactly its key set. -/
lemma keys_perm_of_three {l : List (List Nat)} (hlen : l.length = 3)
    (h1 : keyClient ∈ l) (h2 : keyLevel ∈ l) (h3 : keyMsg ∈ l) :
    l.Perm [keyClient, keyLevel, keyMsg] := by
  have hsub : ([keyClient, keyLevel, keyMsg] : List (List Nat)) ⊆ l := by
    intro x hx
    simp only [List.mem_cons, List.not_mem_nil, or_false] at hx
    rcases hx with rfl | rfl | rfl <;> assumption
  have hsp := keyNodup.subperm hsub
  exact (hsp.perm_of_length_le (by simp [hlen])).symm

/-- C4 counterexample: the JSON object text below, with keys
`client` (value c1), `level` (value 30) and `msg` (value null),
parses as JSON with exactly the three required keys and a valid level — the
condition of the claim holds, witnessed by `specStructuredOrig` — yet the
frame is not routed as a structured entry: the `msg` lookup result is Python
`None`, so the `msg is not None` check fails and the raw text is
logged instead. -/
theorem structured_detection_null_msg_counterexample :
    (interpret (strBytes
        "\x7b\x22client\x22:\x22c1\x22,\x22level\x22:30,\x22msg\x22:null\x7d")).isStructuredB
      = false
    ∧ specStructuredOrig (strBytes
        "\x7b\x22client\x22:\x22c1\x22,\x22level\x22:30,\x22msg\x22:null\x7d")
      = some (Json.num 30, Json.str (strBytes "c1"), Json.null) :=
  ⟨rfl, rfl⟩

/-- C4 amended: a decoded frame is routed as a structured log entry
carrying level `l`, client `c` and message `m` if and only if its
apostrophe-normalized text parses as JSON as an object whose key set
is exactly the three keys client, level, msg, whose level value `l` is one of
`{10, 20, 30, 40, 50}`, and — the amendment — whose client and msg
values are not JSON `null`; any failure routes the frame to raw
logging instead. -/
theorem structured_detection_iff_amended (t : List Nat) (l c m : Json) :
    interpret t = .structured l c m ↔ specStructured t = some (l, c, m) := by
  unfold interpret specStructured
  dsimp only
  cases hP : pyJsonLoads (normalize t) with
  | none => simp
  | some j =>
      cases j with
      | null => simp [pyLen]
      | bool b => simp [pyLen]
      | num q => simp [pyLen]
      | str s' => by_cases h3 : s'.length = 3 <;> simp [pyLen, pySub, h3]
      | arr xs => by_cases h3 : xs.length = 3 <;> simp [pyLen, pySub, h3]
      | obj kvs =>
          by_cases h3 : kvs.length = 3
          · cases hc : kvs.find? (fun p => decide (p.1 = keyClient)) with
            | none => simp [pyLen, h3, pySub, hc]
            | some prc =>
                cases hl : kvs.find? (fun p => decide (p.1 = keyLevel)) with
                | none => simp [pyLen, h3, pySub, hc, hl]
                | some prl =>
                    cases hm : kvs.find? (fun p => decide (p.1 = keyMsg)) with
                    | none => simp [pyLen, h3, pySub, hc, hl, hm]
                    | some prm =>
                        have hperm :
                            (kvs.map Prod.fst).Perm
                              [keyClient, keyLevel, keyMsg] :=
                          keys_perm_of_three (by simp [h3])
                            (find?_key_some hc).2 (find?_key_some hl).2
                            (find?_key_some hm).2
                        simp only [pyLen, h3, if_true, pySub, hc, hl, hm,
                          Option.map_some', hperm, if_pos]
                        by_cases hcn : prc.2.isNull
                        · simp [pyLocal, hcn]
                        · by_cases hlr : levelInRange prl.2
                          · have hln := levelInRange_not_null hlr
                            by_cases hmn : prm.2.isNull
                            · simp [pyLocal, hcn, hlr, hln, hmn]
                            · simp only [pyLocal, hcn, hlr, hln, hmn,
                                Bool.false_eq_true, if_false, if_true,
                                not_false_eq_true, and_true, true_and]
                              constructor
                              · intro h
                                cases h
                                simp
                              · intro h
                                cases h
                                rfl
                          · simp [pyLocal, hcn, hlr]
          · have hperm :
                ¬ (kvs.map Prod.fst).Perm [keyClient, keyLevel, keyMsg] := by
              intro hp
              exact h3 (by simpa using hp.length_eq)
            simp [pyLen, h3, hperm]

/-! ### Claim C5 -/

/-- C5 counterexample: the frame text `it\x27s` is logged as `it\x22s` under
the generic label — the apostrophe was replaced by a double quote
before the parse attempt and the replaced text is what gets logged, so
the logged text is not the received text verbatim. -/
theorem fallback_text_apostrophe_counterexample :
    interpret (strBytes "it\x27s") = .raw (strBytes "it\x22s")
    ∧ strBytes "it\x22s" ≠ strBytes "it\x27s" :=
  ⟨rfl, by decide⟩

/-- C5 amended: for every decoded frame whose text fails the
structured-log interpretation, the text logged under the generic
Client label is the received text with every apostrophe replaced by a
double quote (and the empty text replaced by the placeholder) — in
particular it is verbatim exactly when the text contains no apostrophe
and is nonempty. -/
theorem fallback_logs_normalized_text (t txt : List Nat)
    (h : interpret t = .raw txt) :
    txt = if normalize t = [] then placeholderBytes else normalize t := by
  unfold interpret at h
  dsimp only at h
  split at h
  · exact absurd h (by simp)
  · rename_i heq
    cases h
    rfl

/-- C5 amended witness: the text `it\x27s` fails the interpretation and
its logged form is `it"s`. -/
theorem fallback_logs_normalized_text_witness :
    strBytes "it\x22s"
      = if normalize (strBytes "it\x27s") = [] then placeholderBytes
        else normalize (strBytes "it\x27s") :=
  fallback_logs_normalized_text (strBytes "it\x27s") (strBytes "it\x22s") rfl

/-! ### Claim C6 -/

/-- C6: `Server.__init__` does store the configured `socket.sleep`
value (here `2`) on the receive thread, but the interval the receive
loop actually sleeps between consecutive iterations is the hard-coded
`time.sleep(0.5)` — the attribute is never read, so the actual
interval does not equal the configured value. -/
theorem receive_interval_ignores_configured_sleep :
    configuredSleep (Json.obj [(strBytes "socket",
        Json.obj [(strBytes "sleep", Json.num 2)])]) = Json.num 2
    ∧ receiveLoopInterval = 1 / 2
    ∧ receiveLoopInterval ≠ 2 := by
  refine ⟨rfl, rfl, ?_⟩
  unfold receiveLoopInterval
  norm_num

/-! ### Claim C7 -/

/-- C7 counterexample: starting from the unbound initial state, a
`create` whose `bind`/`listen` fails returns `False` but leaves the
freshly constructed, non-listening socket object stored in
`self.socket` — the connection is not in the same unbound state as
before the call. -/
theorem create_bind_failure_retains_socket :
    (create true false initConn).1 = false
    ∧ (create true false initConn).2.sock = some SockHandle.fresh
    ∧ (create true false initConn).2 ≠ initConn := by
  refine ⟨rfl, rfl, by decide⟩

/-- C7 amended: `create` returns `True` exactly when the argument
types are right and `bind`/`listen` succeed, and then the socket is
listening; on a type violation the state is fully unchanged; on a
`bind`/`listen` failure it reports failure but retains the fresh
non-listening socket handle; the peer fields are never touched. -/
theorem create_failure_modes (st : Conn) (t b : Bool) :
    ((create t b st).1 = true ↔ t = true ∧ b = true)
    ∧ ((create t b st).1 = true →
        (create t b st).2.sock = some SockHandle.listening)
    ∧ (t = false → (create t b st).2 = st)
    ∧ (t = true → b = false → (create t b st).2.sock = some SockHandle.fresh)
    ∧ (create t b st).2.client_conn = st.client_conn
    ∧ (create t b st).2.client_addr = st.client_addr := by
  cases t <;> cases b <;> simp [create]

/-- C7 amended witness: at the concrete failed-bind call the retained
handle is the fresh one. -/
theorem create_failure_modes_witness :
    (create true false initConn).2.sock = some SockHandle.fresh :=
  (create_failure_modes initConn true false).2.2.2.1 rfl rfl

/-! ### Claim C8 -/

/-- C8: with no peer set, `send` (with any data and mode) and `recv`
(with any stream) both log one error and return `[False, False]`,
leave the state unchanged, write no bytes, and consume nothing from
the stream. -/
theorem noPeer_guard (st : Conn) (h : st.client_conn = none)
    (data : List Nat) (path fileOk sockOk : Bool) (partialOut : List Nat)
    (fuel : Nat) (sched s : List Nat) :
    sendOp st data path fileOk sockOk partialOut = ((false, false), st, [])
    ∧ recvOp fuel sched st s = .ret (false, false) st none s := by
  have hn : st.client_conn.isNone = true := by simp [h]
  exact ⟨by simp [sendOp, hn], by simp [recvOp, hn]⟩

/-- C8 witness: the guard at the initial state with concrete data,
stream and schedule. -/
theorem noPeer_guard_witness :
    sendOp initConn [1, 2] false true true [] = ((false, false), initConn, [])
    ∧ recvOp 3 [] initConn [52] = .ret (false, false) initConn none [52] :=
  noPeer_guard initConn rfl [1, 2] false true true [] 3 [] [52]

/-! ### Claim C9 -/

/-- Every returning branch of `recv` leaves the state it was given:
`recv` assigns no attribute. -/
lemma recvOp_ret_state (fuel : Nat) (sched : List Nat) (st : Conn)
    (s : List Nat) {r : Bool × Bool} {st' : Conn} {routed : Option Routed}
    {rest : List Nat}
    (h : recvOp fuel sched st s = .ret r st' routed rest) : st' = st := by
  unfold recvOp at h
  split_ifs at h
  · cases h; rfl
  · split at h <;> cases h <;> rfl

/-- One operation preserves the peer/address invariant. -/
lemma peerInv_step (st : Conn) (op : Op) (h : peerInv st) :
    peerInv (Op.apply st op) := by
  cases op with
  | create t b =>
      cases t <;> cases b <;>
        simpa [Op.apply, create, peerInv] using h
  | accept r =>
      match r with
      | none => simpa [Op.apply, accept] using h
      | some (c, a) => simp [Op.apply, accept, peerInv]
  | send d p f k po =>
      simp only [Op.apply, sendOp]
      split_ifs <;> simpa [peerInv] using h
  | recv fuel sched s =>
      simp only [Op.apply]
      split
      · rename_i r st' routed rest heq
        rw [recvOp_ret_state fuel sched st s heq]
        exact h
      · exact h
  | close =>
      simp only [Op.apply, close, peerInv]
      split_ifs <;> simp_all [peerInv]
  | clearPeer => simp [Op.apply, clearPeer, peerInv]

/-- C9: the freshly constructed connection satisfies the peer/address
invariant (`client_conn` is set iff `client_addr` is set), and every
sequence of create/accept/send/receive/close operations — including
the controller clearing of the peer state before re-accepting —
preserves it. -/
theorem peer_addr_invariant :
    peerInv initConn
    ∧ ∀ (ops : List Op) (st : Conn), peerInv st → peerInv (applyOps ops st) := by
  refine ⟨rfl, ?_⟩
  intro ops
  induction ops with
  | nil => intro st h; exact h
  | cons op ops ih =>
      intro st h
      exact ih (Op.apply st op) (peerInv_step st op h)

/-- C9 witness: the invariant holds after a concrete accept / clear /
re-accept / close history from the initial state. -/
theorem peer_addr_invariant_witness :
    peerInv (applyOps
      [Op.accept (some (1, 2)), Op.clearPeer, Op.accept (some (3, 4)),
       Op.close] initConn) :=
  peer_addr_invariant.2 _ initConn rfl

/-! ### Claim C10 -/

/-- C10: a frame that decodes to the empty string is not routed as a
structured log message; the receive operation logs the fixed
placeholder `-- empty string --` under the generic Client label and
returns `[True, True]`. -/
theorem empty_frame_placeholder :
    recvInterpret [] = (.raw placeholderBytes, (true, true)) := rfl

end Kanelbulle
